import Mathlib

/-!
Formal model of the Music Assistant WebSocket client and state reconciler
(`src/server/ma/client.ts`, `src/server/index.ts`, `src/server/ma/types.ts`).

JavaScript values appearing on the wire are modelled by the inductive `Json`
below; JavaScript numbers are modelled as rationals (`ℚ`); `undefined` is
modelled by `Option`.  `String.trim` of JavaScript is modelled by `jsTrim`,
a structurally recursive trim over the character list (kernel-evaluable).
-/

/-- Model of a parsed JSON / JavaScript value.  JS numbers are rationals. -/
inductive Json where
  | null
  | bool (b : Bool)
  | num (q : ℚ)
  | str (s : String)
  | arr (elems : List Json)
  | obj (fields : List (String × Json))

/-- Model of JavaScript `String.prototype.trim` (whitespace stripped from
both ends), written structurally so the kernel can evaluate it. -/
def jsTrim (s : String) : String :=
  ⟨((s.data.dropWhile Char.isWhitespace).reverse.dropWhile Char.isWhitespace).reverse⟩

/-! ## Pending-request table (`src/server/ma/client.ts`)

`sendCommand` registers a pending entry keyed by a fresh message id before
writing the frame; `handleResultMessage` settles entries on result frames;
the per-entry timer settles on timeout; `rejectPendingRequests` settles all
entries on teardown.  `randomUUID` is modelled by a monotone counter
(`nextId`), which captures exactly the uniqueness guarantee the code relies
on; message ids are therefore `Nat` in the model. -/

/-- `COMMAND_TIMEOUT_MS` from `client.ts`. -/
def COMMAND_TIMEOUT_MS : Nat := 12000

/-- One entry of the `pending` map: the accumulator of streamed results
(`partialResults` in the source, renamed to `acc`) and the duration the
entry's timer was armed with. -/
structure PEntry where
  acc : List Json
  timeoutMs : Nat

/-- `WebSocket.readyState` values. -/
inductive ReadyState where
  | CONNECTING
  | OPEN
  | CLOSING
  | CLOSED
deriving DecidableEq

/-- The state of the client relevant to the pending-request table:
the socket (if any) with its ready state, the id counter modelling
`randomUUID`, and the pending map (association list keyed by message id). -/
structure ClientState where
  ws : Option ReadyState
  nextId : Nat
  pending : List (Nat × PEntry)

/-- The keys of the pending map. -/
def pendingIds (s : ClientState) : List Nat := s.pending.map Prod.fst

/-- `this.pending.get(id)`. -/
def lookupPending (s : ClientState) (id : Nat) : Option PEntry :=
  (s.pending.find? (fun kv => kv.1 == id)).map (·.2)

/-- `this.pending.delete(id)`. -/
def removePending (pending : List (Nat × PEntry)) (id : Nat) : List (Nat × PEntry) :=
  pending.filter (fun kv => kv.1 != id)

/-- `this.pending.set(id, e)` for a key already present (in-place update of
the entry, as the source mutates `partialResults`). -/
def setPending (pending : List (Nat × PEntry)) (id : Nat) (e : PEntry) :
    List (Nat × PEntry) :=
  pending.map (fun kv => if kv.1 == id then (id, e) else kv)

/-- How a pending request was settled.  `resolved` carries the value passed
to `resolve` (`none` models resolving with `undefined`). -/
inductive Outcome where
  | resolved (value : Option Json)
  | rejectedError
  | rejectedTimeout
  | rejectedTeardown

/-- A settlement: which message id settled, and how. -/
abbrev Settlement := Nat × Outcome

/-- The events that touch the pending table:

* `send` — a `sendCommand` call (registers an entry when the socket is open,
  throws otherwise);
* `success id payload isPart` — `handleResultMessage` on a success result
  frame (`payload` is the frame's `result` field, `none` = `undefined`;
  `isPart` is the `partial` flag);
* `errorRes id` — `handleResultMessage` on an error result frame;
* `timeoutFire id` — the entry's 12 s timer fires (only possible while the
  entry exists, because `clearTimeout` accompanies every removal);
* `teardown` — socket close / `disconnect`, running `rejectPendingRequests`. -/
inductive MAEvent where
  | send
  | success (id : Nat) (payload : Option Json) (isPart : Bool)
  | errorRes (id : Nat)
  | timeoutFire (id : Nat)
  | teardown

/-- Register a fresh pending entry (the body of `sendCommand` after the
open-socket check): a new id from the generator, an empty accumulator and a
12 s timer, inserted before the frame is written. -/
def registerPending (s : ClientState) : ClientState :=
  { s with nextId := s.nextId + 1,
           pending := (s.nextId, ⟨[], COMMAND_TIMEOUT_MS⟩) :: s.pending }

/-- One step of the pending-table life cycle.  Returns the new state and the
settlements performed by the step (in order). -/
def step (s : ClientState) : MAEvent → ClientState × List Settlement
  | .send =>
      match s.ws with
      | some .OPEN => (registerPending s, [])
      | _ => (s, [])
  | .success id payload isPart =>
      match lookupPending s id with
      | none => (s, [])
      | some entry =>
          if isPart then
            match payload with
            | some (Json.arr xs) =>
                ({ s with pending := setPending s.pending id ⟨entry.acc ++ xs, entry.timeoutMs⟩ }, [])
            | _ => (s, [])
          else
            let value : Option Json :=
              match entry.acc, payload with
              | _ :: _, some (Json.arr xs) => some (Json.arr (entry.acc ++ xs))
              | _, _ => payload
            ({ s with pending := removePending s.pending id },
             [(id, Outcome.resolved value)])
  | .errorRes id =>
      match lookupPending s id with
      | none => (s, [])
      | some _ =>
          ({ s with pending := removePending s.pending id },
           [(id, Outcome.rejectedError)])
  | .timeoutFire id =>
      match lookupPending s id with
      | none => (s, [])
      | some _ =>
          ({ s with pending := removePending s.pending id },
           [(id, Outcome.rejectedTimeout)])
  | .teardown =>
      ({ s with ws := none, pending := [] },
       s.pending.map (fun kv => (kv.1, Outcome.rejectedTeardown)))

/-- Run a sequence of events, collecting all settlements in order. -/
def runEvents (s : ClientState) : List MAEvent → ClientState × List Settlement
  | [] => (s, [])
  | e :: es =>
      ((runEvents (step s e).1 es).1, (step s e).2 ++ (runEvents (step s e).1 es).2)

/-- How many times `id` is settled in a settlement list. -/
def countSettle (id : Nat) (out : List Settlement) : Nat :=
  (out.map Prod.fst).count id

/-- Invariant maintained by the client: pending keys are distinct and below
the id generator's counter (the uniqueness guarantee of `randomUUID`). -/
def TableInv (s : ClientState) : Prop :=
  (pendingIds s).Nodup ∧ ∀ id ∈ pendingIds s, id < s.nextId

/-! ### Supporting lemmas about the pending table -/

lemma mem_pendingIds_iff_lookup (s : ClientState) (id : Nat) :
    id ∈ pendingIds s ↔ (lookupPending s id).isSome := by
  unfold pendingIds lookupPending
  cases hf : s.pending.find? (fun kv => kv.1 == id) with
  | none =>
      simp only [Option.map_none', Option.isSome_none, Bool.false_eq_true, iff_false]
      intro hmem
      obtain ⟨kv, hkv, hfst⟩ := List.mem_map.mp hmem
      have := List.find?_eq_none.mp hf kv hkv
      simp [hfst] at this
  | some kv =>
      simp only [Option.map_some', Option.isSome_some, iff_true]
      have hmem := List.mem_of_find?_eq_some hf
      have hp := List.find?_some hf
      simp only [beq_iff_eq] at hp
      exact List.mem_map.mpr ⟨kv, hmem, hp⟩

lemma keys_setPending (l : List (Nat × PEntry)) (id : Nat) (e : PEntry) :
    (setPending l id e).map Prod.fst = l.map Prod.fst := by
  unfold setPending
  rw [List.map_map]
  apply List.map_congr_left
  intro kv _
  by_cases h : kv.1 = id
  · simp [Function.comp, h]
  · simp [Function.comp, h]

lemma mem_keys_removePending {l : List (Nat × PEntry)} {a id : Nat} :
    a ∈ (removePending l id).map Prod.fst ↔ a ∈ l.map Prod.fst ∧ a ≠ id := by
  simp only [removePending, List.mem_map, List.mem_filter, bne_iff_ne, ne_eq]
  constructor
  · rintro ⟨kv, ⟨hkv, hne⟩, rfl⟩; exact ⟨⟨kv, hkv, rfl⟩, hne⟩
  · rintro ⟨⟨kv, hkv, rfl⟩, hne⟩; exact ⟨kv, ⟨hkv, hne⟩, rfl⟩

lemma nodup_keys_removePending {l : List (Nat × PEntry)}
    (h : (l.map Prod.fst).Nodup) (id : Nat) :
    ((removePending l id).map Prod.fst).Nodup :=
  ((List.filter_sublist l).map Prod.fst).nodup h

lemma countSettle_append (id : Nat) (a b : List Settlement) :
    countSettle id (a ++ b) = countSettle id a + countSettle id b := by
  simp [countSettle, List.count_append]

lemma teardown_settle_ids (s : ClientState) :
    ((step s MAEvent.teardown).2.map Prod.fst) = pendingIds s := by
  simp [step, pendingIds, List.map_map]

lemma nextId_step_le (s : ClientState) (e : MAEvent) :
    s.nextId ≤ (step s e).1.nextId := by
  cases e with
  | send =>
      cases hws : s.ws with
      | none => simp [step, hws]
      | some r => cases r <;> simp [step, hws, registerPending]
  | success id payload isPart =>
      cases hl : lookupPending s id with
      | none => simp [step, hl]
      | some entry =>
          cases isPart
          · simp [step, hl]
          · cases payload with
            | none => simp [step, hl]
            | some j => cases j <;> simp [step, hl]
  | errorRes id =>
      cases hl : lookupPending s id with
      | none => simp [step, hl]
      | some entry => simp [step, hl]
  | timeoutFire id =>
      cases hl : lookupPending s id with
      | none => simp [step, hl]
      | some entry => simp [step, hl]
  | teardown => simp [step]

lemma countSettle_nil (id : Nat) : countSettle id [] = 0 := rfl

lemma countSettle_single_ne {id j : Nat} (h : j ≠ id) (o : Outcome) :
    countSettle id [(j, o)] = 0 := by
  simp [countSettle, List.count_cons, Ne.symm h]

lemma countSettle_single_eq (id : Nat) (o : Outcome) :
    countSettle id [(id, o)] = 1 := by
  simp [countSettle, List.count_cons]

lemma lookupPending_eq_none_of_not_mem {s : ClientState} {id : Nat}
    (h : id ∉ pendingIds s) : lookupPending s id = none := by
  rw [mem_pendingIds_iff_lookup] at h
  exact Option.not_isSome_iff_eq_none.mp h

/-- A step settles only ids that were pending before the step, and any id it
settles is no longer pending afterwards. -/
lemma step_settles (s : ClientState) (e : MAEvent) (id : Nat) (o : Outcome)
    (h : (id, o) ∈ (step s e).2) :
    id ∈ pendingIds s ∧ id ∉ pendingIds (step s e).1 := by
  cases e with
  | send =>
      cases hws : s.ws with
      | none => simp [step, hws] at h
      | some r => cases r <;> simp [step, hws, registerPending] at h
  | success j payload isPart =>
      cases hl : lookupPending s j with
      | none => simp [step, hl] at h
      | some entry =>
          cases isPart with
          | true =>
              cases payload with
              | none => simp [step, hl] at h
              | some jv => cases jv <;> simp [step, hl] at h
          | false =>
              have hid : id ∈ ((step s (MAEvent.success j payload false)).2.map Prod.fst) :=
                List.mem_map.mpr ⟨(id, o), h, rfl⟩
              simp only [step, hl, Bool.false_eq_true, if_false, List.map_cons,
                List.map_nil, List.mem_singleton] at hid
              subst hid
              refine ⟨(mem_pendingIds_iff_lookup _ _).mpr (by simp [hl]), ?_⟩
              simp only [step, hl, Bool.false_eq_true, if_false, pendingIds]
              intro hmem
              exact (mem_keys_removePending.mp hmem).2 rfl
  | errorRes j =>
      cases hl : lookupPending s j with
      | none => simp [step, hl] at h
      | some entry =>
          simp only [step, hl, List.mem_singleton, Prod.mk.injEq] at h
          obtain ⟨h1, h2⟩ := h
          subst h1
          refine ⟨(mem_pendingIds_iff_lookup _ _).mpr (by simp [hl]), ?_⟩
          simp only [step, hl, pendingIds]
          intro hmem
          exact (mem_keys_removePending.mp hmem).2 rfl
  | timeoutFire j =>
      cases hl : lookupPending s j with
      | none => simp [step, hl] at h
      | some entry =>
          simp only [step, hl, List.mem_singleton, Prod.mk.injEq] at h
          obtain ⟨h1, h2⟩ := h
          subst h1
          refine ⟨(mem_pendingIds_iff_lookup _ _).mpr (by simp [hl]), ?_⟩
          simp only [step, hl, pendingIds]
          intro hmem
          exact (mem_keys_removePending.mp hmem).2 rfl
  | teardown =>
      constructor
      · have : id ∈ (step s MAEvent.teardown).2.map Prod.fst :=
          List.mem_map.mpr ⟨(id, o), h, rfl⟩
        rwa [teardown_settle_ids] at this
      · simp [step, pendingIds]

/-- A step emits each id at most once (pending keys are distinct). -/
lemma step_countSettle_le_one (s : ClientState) (e : MAEvent) (id : Nat)
    (hnd : (pendingIds s).Nodup) :
    countSettle id (step s e).2 ≤ 1 := by
  cases e with
  | send =>
      cases hws : s.ws with
      | none => simp [step, hws, countSettle]
      | some r => cases r <;> simp [step, hws, registerPending, countSettle]
  | success j payload isPart =>
      cases hl : lookupPending s j with
      | none => simp [step, hl, countSettle]
      | some entry =>
          cases isPart with
          | true =>
              cases payload with
              | none => simp [step, hl, countSettle]
              | some jv => cases jv <;> simp [step, hl, countSettle, List.count_cons]
          | false =>
              by_cases hji : j = id
              · subst hji; simp [step, hl, countSettle_single_eq]
              · simp [step, hl, countSettle_single_ne hji]
  | errorRes j =>
      cases hl : lookupPending s j with
      | none => simp [step, hl, countSettle]
      | some entry =>
          by_cases hji : j = id
          · subst hji; simp [step, hl, countSettle_single_eq]
          · simp [step, hl, countSettle_single_ne hji]
  | timeoutFire j =>
      cases hl : lookupPending s j with
      | none => simp [step, hl, countSettle]
      | some entry =>
          by_cases hji : j = id
          · subst hji; simp [step, hl, countSettle_single_eq]
          · simp [step, hl, countSettle_single_ne hji]
  | teardown =>
      have : countSettle id (step s MAEvent.teardown).2 = (pendingIds s).count id := by
        rw [countSettle, teardown_settle_ids]
      rw [this]
      exact List.nodup_iff_count_le_one.mp hnd id

/-- An id that is not pending and already below the id counter is never
touched again: it stays absent, stays below the counter, and is never
settled by any later event. -/
lemma step_dead (s : ClientState) (e : MAEvent) (id : Nat)
    (hnm : id ∉ pendingIds s) (hlt : id < s.nextId) :
    id ∉ pendingIds (step s e).1 ∧ id < (step s e).1.nextId ∧
      countSettle id (step s e).2 = 0 := by
  have hcnt : countSettle id (step s e).2 = 0 := by
    cases hc : countSettle id (step s e).2 with
    | zero => rfl
    | succ n =>
        have hpos : 0 < countSettle id (step s e).2 := by omega
        have hmem : id ∈ (step s e).2.map Prod.fst :=
          List.count_pos_iff.mp hpos
        obtain ⟨kv, hkv, hfst⟩ := List.mem_map.mp hmem
        have := (step_settles s e kv.1 kv.2 (by simpa using hkv)).1
        rw [hfst] at this
        exact absurd this hnm
  refine ⟨?_, Nat.lt_of_lt_of_le hlt (nextId_step_le s e), hcnt⟩
  intro hmem'
  -- case analysis: how could `id` have appeared?
  cases e with
  | send =>
      cases hws : s.ws with
      | none => rw [step, hws] at hmem'; exact hnm hmem'
      | some r =>
          cases r <;> rw [step, hws] at hmem' <;> try exact hnm hmem'
          · simp only [registerPending, pendingIds, List.map_cons, List.mem_cons] at hmem'
            rcases hmem' with h1 | h2
            · omega
            · exact hnm h2
  | success j payload isPart =>
      cases hl : lookupPending s j with
      | none => rw [step, hl] at hmem'; exact hnm hmem'
      | some entry =>
          cases isPart with
          | true =>
              cases payload with
              | none => rw [step, hl] at hmem'; simp at hmem'; exact hnm hmem'
              | some jv =>
                  cases jv <;> rw [step, hl] at hmem' <;> simp at hmem' <;>
                    first
                      | exact hnm hmem'
                      | (rw [pendingIds, keys_setPending] at hmem'; exact hnm hmem')
          | false =>
              rw [step, hl] at hmem'
              simp only [Bool.false_eq_true, if_false, pendingIds] at hmem'
              exact hnm (mem_keys_removePending.mp hmem').1
  | errorRes j =>
      cases hl : lookupPending s j with
      | none => rw [step, hl] at hmem'; exact hnm hmem'
      | some entry =>
          rw [step, hl] at hmem'
          simp only [pendingIds] at hmem'
          exact hnm (mem_keys_removePending.mp hmem').1
  | timeoutFire j =>
      cases hl : lookupPending s j with
      | none => rw [step, hl] at hmem'; exact hnm hmem'
      | some entry =>
          rw [step, hl] at hmem'
          simp only [pendingIds] at hmem'
          exact hnm (mem_keys_removePending.mp hmem').1
  | teardown => simp [step, pendingIds] at hmem'

/-- Every step preserves the table invariant. -/
lemma step_inv (s : ClientState) (e : MAEvent) (h : TableInv s) :
    TableInv (step s e).1 := by
  obtain ⟨hnd, hbd⟩ := h
  cases e with
  | send =>
      cases hws : s.ws with
      | none => rw [step, hws]; exact ⟨hnd, hbd⟩
      | some r =>
          cases r <;> rw [step, hws]
          case OPEN =>
            constructor
            · simp only [registerPending, pendingIds, List.map_cons]
              refine List.nodup_cons.mpr ⟨?_, hnd⟩
              intro hmem
              exact absurd (hbd _ hmem) (by omega)
            · simp only [registerPending, pendingIds, List.map_cons, List.mem_cons]
              rintro id (rfl | hmem)
              · omega
              · exact Nat.lt_succ_of_lt (hbd _ hmem)
          all_goals exact ⟨hnd, hbd⟩
  | success j payload isPart =>
      cases hl : lookupPending s j with
      | none => rw [step, hl]; exact ⟨hnd, hbd⟩
      | some entry =>
          cases isPart with
          | true =>
              cases payload with
              | none => rw [step, hl]; exact ⟨hnd, hbd⟩
              | some jv =>
                  cases jv with
                  | arr xs =>
                      rw [step, hl]
                      refine ⟨?_, ?_⟩
                      · show ((setPending s.pending j ⟨entry.acc ++ xs, entry.timeoutMs⟩).map Prod.fst).Nodup
                        rw [keys_setPending]
                        exact hnd
                      · intro id hmem
                        have hmem' : id ∈ (setPending s.pending j
                            ⟨entry.acc ++ xs, entry.timeoutMs⟩).map Prod.fst := hmem
                        rw [keys_setPending] at hmem'
                        exact hbd _ hmem'
                  | null => rw [step, hl]; exact ⟨hnd, hbd⟩
                  | bool b => rw [step, hl]; exact ⟨hnd, hbd⟩
                  | num q => rw [step, hl]; exact ⟨hnd, hbd⟩
                  | str t => rw [step, hl]; exact ⟨hnd, hbd⟩
                  | obj fs => rw [step, hl]; exact ⟨hnd, hbd⟩
          | false =>
              rw [step, hl]
              simp only [Bool.false_eq_true, if_false]
              constructor
              · exact nodup_keys_removePending hnd j
              · intro id hmem
                exact hbd _ (mem_keys_removePending.mp hmem).1
  | errorRes j =>
      cases hl : lookupPending s j with
      | none => rw [step, hl]; exact ⟨hnd, hbd⟩
      | some entry =>
          rw [step, hl]
          constructor
          · exact nodup_keys_removePending hnd j
          · intro id hmem
            exact hbd _ (mem_keys_removePending.mp hmem).1
  | timeoutFire j =>
      cases hl : lookupPending s j with
      | none => rw [step, hl]; exact ⟨hnd, hbd⟩
      | some entry =>
          rw [step, hl]
          constructor
          · exact nodup_keys_removePending hnd j
          · intro id hmem
            exact hbd _ (mem_keys_removePending.mp hmem).1
  | teardown => simp [step, TableInv, pendingIds]

/-- A pending id that a step does not settle is still pending afterwards. -/
lemma step_survives (s : ClientState) (e : MAEvent) (id : Nat)
    (hm : id ∈ pendingIds s) (h0 : countSettle id (step s e).2 = 0) :
    id ∈ pendingIds (step s e).1 := by
  cases e with
  | send =>
      cases hws : s.ws with
      | none => rw [step, hws]; exact hm
      | some r =>
          cases r <;> rw [step, hws] <;> try exact hm
          · simp only [registerPending, pendingIds, List.map_cons, List.mem_cons]
            exact Or.inr hm
  | success j payload isPart =>
      cases hl : lookupPending s j with
      | none => rw [step, hl]; exact hm
      | some entry =>
          cases isPart with
          | true =>
              cases payload with
              | none => rw [step, hl]; exact hm
              | some jv =>
                  cases jv with
                  | arr xs =>
                      rw [step, hl]
                      show id ∈ (setPending s.pending j
                        ⟨entry.acc ++ xs, entry.timeoutMs⟩).map Prod.fst
                      rw [keys_setPending]
                      exact hm
                  | null => rw [step, hl]; exact hm
                  | bool b => rw [step, hl]; exact hm
                  | num q => rw [step, hl]; exact hm
                  | str t => rw [step, hl]; exact hm
                  | obj fs => rw [step, hl]; exact hm
          | false =>
              by_cases hji : j = id
              · subst hji
                rw [step, hl] at h0
                simp only [Bool.false_eq_true, if_false] at h0
                rw [countSettle_single_eq] at h0
                exact absurd h0 (by omega)
              · rw [step, hl]
                simp only [Bool.false_eq_true, if_false, pendingIds]
                exact mem_keys_removePending.mpr ⟨hm, fun hh => hji hh.symm⟩
  | errorRes j =>
      cases hl : lookupPending s j with
      | none => rw [step, hl]; exact hm
      | some entry =>
          by_cases hji : j = id
          · subst hji
            rw [step, hl] at h0
            rw [countSettle_single_eq] at h0
            exact absurd h0 (by omega)
          · rw [step, hl]
            simp only [pendingIds]
            exact mem_keys_removePending.mpr ⟨hm, fun hh => hji hh.symm⟩
  | timeoutFire j =>
      cases hl : lookupPending s j with
      | none => rw [step, hl]; exact hm
      | some entry =>
          by_cases hji : j = id
          · subst hji
            rw [step, hl] at h0
            rw [countSettle_single_eq] at h0
            exact absurd h0 (by omega)
          · rw [step, hl]
            simp only [pendingIds]
            exact mem_keys_removePending.mpr ⟨hm, fun hh => hji hh.symm⟩
  | teardown =>
      have : countSettle id (step s MAEvent.teardown).2 = (pendingIds s).count id := by
        rw [countSettle, teardown_settle_ids]
      rw [this] at h0
      have := List.count_pos_iff.mpr hm
      omega

lemma runEvents_cons (s : ClientState) (e : MAEvent) (es : List MAEvent) :
    runEvents s (e :: es) =
      ((runEvents (step s e).1 es).1, (step s e).2 ++ (runEvents (step s e).1 es).2) := rfl

/-- A dead id (absent and below the counter) is never settled by any run. -/
lemma runEvents_dead (id : Nat) :
    ∀ (es : List MAEvent) (s : ClientState), id ∉ pendingIds s → id < s.nextId →
      countSettle id (runEvents s es).2 = 0 := by
  intro es
  induction es with
  | nil => intro s _ _; simp [runEvents, countSettle]
  | cons e rest ih =>
      intro s hnm hlt
      obtain ⟨h1, h2, h3⟩ := step_dead s e id hnm hlt
      rw [runEvents_cons, countSettle_append, h3, ih _ h1 h2]

/-- Under the table invariant, any run settles each id at most once. -/
lemma runEvents_count_le_one (id : Nat) :
    ∀ (es : List MAEvent) (s : ClientState), TableInv s →
      countSettle id (runEvents s es).2 ≤ 1 := by
  intro es
  induction es with
  | nil => intro s _; simp [runEvents, countSettle]
  | cons e rest ih =>
      intro s hinv
      rw [runEvents_cons, countSettle_append]
      cases hc : countSettle id (step s e).2 with
      | zero =>
          have := ih (step s e).1 (step_inv s e hinv)
          omega
      | succ n =>
          have hle := step_countSettle_le_one s e id hinv.1
          have hpos : 0 < countSettle id (step s e).2 := by omega
          have hmem : id ∈ (step s e).2.map Prod.fst := List.count_pos_iff.mp hpos
          obtain ⟨kv, hkv, hfst⟩ := List.mem_map.mp hmem
          obtain ⟨hbefore, hafter⟩ := step_settles s e kv.1 kv.2 (by simpa using hkv)
          rw [hfst] at hbefore hafter
          have hlt : id < (step s e).1.nextId :=
            Nat.lt_of_lt_of_le (hinv.2 id hbefore) (nextId_step_le s e)
          have hrest := runEvents_dead id rest (step s e).1 hafter hlt
          omega

/-- If a teardown occurs in the run, an id pending at the start is settled
at least once. -/
lemma runEvents_teardown_ge_one (id : Nat) :
    ∀ (es : List MAEvent) (s : ClientState), TableInv s → id ∈ pendingIds s →
      MAEvent.teardown ∈ es → 1 ≤ countSettle id (runEvents s es).2 := by
  intro es
  induction es with
  | nil => intro s _ _ habs; exact absurd habs (List.not_mem_nil _)
  | cons e rest ih =>
      intro s hinv hm htd
      rw [runEvents_cons, countSettle_append]
      cases hc : countSettle id (step s e).2 with
      | succ n => omega
      | zero =>
          have hne : e ≠ MAEvent.teardown := by
            intro rfl'
            subst rfl'
            have : countSettle id (step s MAEvent.teardown).2 = (pendingIds s).count id := by
              rw [countSettle, teardown_settle_ids]
            rw [this] at hc
            have := List.count_pos_iff.mpr hm
            omega
          have htd' : MAEvent.teardown ∈ rest := by
            rcases List.mem_cons.mp htd with h | h
            · exact absurd h.symm hne
            · exact h
          have hsurv := step_survives s e id hm hc
          have := ih (step s e).1 (step_inv s e hinv) hsurv htd'
          omega

/-- C1: For every pending request, exactly one settlement occurs.  Under the
client invariant, (1) any run of events settles each message id at most
once; (2) if the socket is torn down during the run, an id pending at its
start is settled exactly once (never zero); (3) any settlement happens only
for an entry present in the pending table and removes that entry; (4) a
timer whose entry was removed (its `clearTimeout` having run) can no longer
settle anything. -/
theorem pending_request_exactly_one_settlement
    (s : ClientState) (es : List MAEvent) (id : Nat) (hinv : TableInv s) :
    countSettle id (runEvents s es).2 ≤ 1 ∧
    (id ∈ pendingIds s → MAEvent.teardown ∈ es →
      countSettle id (runEvents s es).2 = 1) ∧
    (∀ (e : MAEvent) (o : Outcome), (id, o) ∈ (step s e).2 →
      id ∈ pendingIds s ∧ id ∉ pendingIds (step s e).1) ∧
    (id ∉ pendingIds s → step s (MAEvent.timeoutFire id) = (s, [])) := by
  refine ⟨runEvents_count_le_one id es s hinv, ?_, ?_, ?_⟩
  · intro hm htd
    have h1 := runEvents_count_le_one id es s hinv
    have h2 := runEvents_teardown_ge_one id es s hinv hm htd
    omega
  · intro e o h
    exact step_settles s e id o h
  · intro hnm
    rw [step, lookupPending_eq_none_of_not_mem hnm]

/-- A concrete client state: open socket, one pending request with id 3. -/
def c1Start : ClientState := ⟨some ReadyState.OPEN, 5, [(3, ⟨[], COMMAND_TIMEOUT_MS⟩)]⟩

theorem pending_request_exactly_one_settlement_witness :
    countSettle 3 (runEvents c1Start [MAEvent.teardown]).2 = 1 :=
  (pending_request_exactly_one_settlement c1Start [MAEvent.teardown] 3
      ⟨by decide, by decide⟩).2.1 (by decide) (List.Mem.head _)

/-! ### Partial-result accumulation (`handleResultMessage`) -/

lemma step_success_part_no_settle (s : ClientState) (id : Nat) (payload : Option Json) :
    (step s (MAEvent.success id payload true)).2 = [] := by
  cases hl : lookupPending s id with
  | none => rw [step, hl]
  | some entry =>
      cases payload with
      | none => rw [step, hl]; rfl
      | some jv => cases jv <;> rw [step, hl] <;> rfl

lemma find?_setPending (l : List (Nat × PEntry)) (id : Nat) (e : PEntry)
    (h : (l.find? (fun kv => kv.1 == id)).isSome) :
    (setPending l id e).find? (fun kv => kv.1 == id) = some (id, e) := by
  induction l with
  | nil => simp at h
  | cons kv t ih =>
      by_cases hk : kv.1 = id
      · unfold setPending
        simp only [List.map_cons, if_pos (beq_iff_eq.mpr hk)]
        simp [List.find?_cons]
      · have hbeq : (kv.1 == id) = false := by simp [hk]
        unfold setPending at ih ⊢
        simp only [List.map_cons]
        rw [show (if kv.1 == id then (id, e) else kv) = kv by simp [hbeq]]
        rw [List.find?_cons_of_neg _ (by simp [hbeq])]
        rw [List.find?_cons_of_neg _ (by simp [hbeq])] at h
        exact ih h

lemma lookupPending_after_part_append (s : ClientState) (id : Nat) (xs : List Json)
    (entry : PEntry) (hl : lookupPending s id = some entry) :
    lookupPending (step s (MAEvent.success id (some (Json.arr xs)) true)).1 id =
      some ⟨entry.acc ++ xs, entry.timeoutMs⟩ := by
  have hsome : (s.pending.find? (fun kv => kv.1 == id)).isSome := by
    unfold lookupPending at hl
    cases hf : s.pending.find? (fun kv => kv.1 == id) with
    | none => rw [hf] at hl; cases hl
    | some kv => simp
  rw [step, hl]
  show (((setPending s.pending id _).find? (fun kv => kv.1 == id)).map (·.2)) = _
  rw [find?_setPending _ _ _ hsome]
  rfl

lemma step_success_final_concat (s : ClientState) (id : Nat) (xs : List Json)
    (entry : PEntry) (hl : lookupPending s id = some entry) (hacc : entry.acc ≠ []) :
    (step s (MAEvent.success id (some (Json.arr xs)) false)).2 =
      [(id, Outcome.resolved (some (Json.arr (entry.acc ++ xs))))] := by
  rw [step, hl]
  cases hacc' : entry.acc with
  | nil => exact absurd hacc' hacc
  | cons a t => simp [hacc']

lemma step_success_final_empty_acc (s : ClientState) (id : Nat) (payload : Option Json)
    (entry : PEntry) (hl : lookupPending s id = some entry) (hacc : entry.acc = []) :
    (step s (MAEvent.success id payload false)).2 = [(id, Outcome.resolved payload)] := by
  rw [step, hl]
  cases payload with
  | none => simp [hacc]
  | some jv => cases jv <;> simp [hacc]

lemma step_success_final_nonarray (s : ClientState) (id : Nat) (payload : Option Json)
    (entry : PEntry) (hl : lookupPending s id = some entry)
    (hna : ∀ xs, payload ≠ some (Json.arr xs)) :
    (step s (MAEvent.success id payload false)).2 = [(id, Outcome.resolved payload)] := by
  rw [step, hl]
  cases payload with
  | none => cases hacc : entry.acc <;> simp [hacc]
  | some jv =>
      cases jv with
      | arr xs => exact absurd rfl (hna xs)
      | null => cases hacc : entry.acc <;> simp [hacc]
      | bool b => cases hacc : entry.acc <;> simp [hacc]
      | num q => cases hacc : entry.acc <;> simp [hacc]
      | str t => cases hacc : entry.acc <;> simp [hacc]
      | obj fs => cases hacc : entry.acc <;> simp [hacc]

lemma step_success_part_nonarray (s : ClientState) (id : Nat) (payload : Option Json)
    (hna : ∀ xs, payload ≠ some (Json.arr xs)) :
    step s (MAEvent.success id payload true) = (s, []) := by
  cases hl : lookupPending s id with
  | none => rw [step, hl]
  | some entry =>
      cases payload with
      | none => rw [step, hl]; rfl
      | some jv =>
          cases jv with
          | arr xs => exact absurd rfl (hna xs)
          | null => rw [step, hl]; rfl
          | bool b => rw [step, hl]; rfl
          | num q => rw [step, hl]; rfl
          | str t => rw [step, hl]; rfl
          | obj fs => rw [step, hl]; rfl

/-- The four wire values of the spec's streaming example. -/
def jA : Json := Json.str "a"

def jB : Json := Json.str "b"

def jC : Json := Json.str "c"

def jD : Json := Json.str "d"

/-- A client state with one pending request (id 1, empty accumulator). -/
def c2Start : ClientState := ⟨some ReadyState.OPEN, 2, [(1, ⟨[], COMMAND_TIMEOUT_MS⟩)]⟩

/-- Frames `[a,b]` (partial), `[c]` (partial), `[d]` (final). -/
def c2Events : List MAEvent :=
  [MAEvent.success 1 (some (Json.arr [jA, jB])) true,
   MAEvent.success 1 (some (Json.arr [jC])) true,
   MAEvent.success 1 (some (Json.arr [jD])) false]

/-- C2: Partial results never complete a request; an array payload of a
partial frame is appended to the entry's accumulator in arrival order; the
first non-partial result resolves with accumulator ++ payload when the
accumulator is non-empty, else with the payload alone; in particular the
partial frames `[a,b]`, `[c]` followed by non-partial `[d]` resolve to
`[a,b,c,d]`. -/
theorem partial_results_accumulate_in_order
    (s : ClientState) (id : Nat) (payload : Option Json) (xs : List Json)
    (entry : PEntry) :
    ((step s (MAEvent.success id payload true)).2 = []) ∧
    (lookupPending s id = some entry →
      lookupPending (step s (MAEvent.success id (some (Json.arr xs)) true)).1 id =
        some ⟨entry.acc ++ xs, entry.timeoutMs⟩) ∧
    (lookupPending s id = some entry → entry.acc ≠ [] →
      (step s (MAEvent.success id (some (Json.arr xs)) false)).2 =
        [(id, Outcome.resolved (some (Json.arr (entry.acc ++ xs))))]) ∧
    (lookupPending s id = some entry → entry.acc = [] →
      (step s (MAEvent.success id payload false)).2 = [(id, Outcome.resolved payload)]) ∧
    ((runEvents c2Start c2Events).2 =
      [(1, Outcome.resolved (some (Json.arr [jA, jB, jC, jD])))]) :=
  ⟨step_success_part_no_settle s id payload,
   fun hl => lookupPending_after_part_append s id xs entry hl,
   fun hl hacc => step_success_final_concat s id xs entry hl hacc,
   fun hl hacc => step_success_final_empty_acc s id payload entry hl hacc,
   rfl⟩

theorem partial_results_accumulate_in_order_witness :
    lookupPending (step c2Start (MAEvent.success 1 (some (Json.arr [jC])) true)).1 1 =
      some ⟨[] ++ [jC], COMMAND_TIMEOUT_MS⟩ :=
  (partial_results_accumulate_in_order c2Start 1 none [jC]
      ⟨[], COMMAND_TIMEOUT_MS⟩).2.1 rfl

/-- A client state with one pending request (id 1, empty accumulator). -/
def c9Start : ClientState := ⟨some ReadyState.OPEN, 2, [(1, ⟨[], COMMAND_TIMEOUT_MS⟩)]⟩

/-- A partial array frame `[a]` followed by a final non-array frame `"x"`. -/
def c9Events : List MAEvent :=
  [MAEvent.success 1 (some (Json.arr [jA])) true,
   MAEvent.success 1 (some (Json.str "x")) false]

/-- C9: A partial result whose payload is not an array contributes nothing
(the whole step is a no-op), and a final non-partial result whose payload is
not an array resolves with that payload alone even when partial items had
accumulated — they are silently discarded, as the concrete run shows. -/
theorem nonarray_payloads_bypass_accumulator
    (s : ClientState) (id : Nat) (payload : Option Json) (entry : PEntry)
    (hna : ∀ xs, payload ≠ some (Json.arr xs)) :
    (step s (MAEvent.success id payload true) = (s, [])) ∧
    (lookupPending s id = some entry →
      (step s (MAEvent.success id payload false)).2 = [(id, Outcome.resolved payload)]) ∧
    ((runEvents c9Start c9Events).2 = [(1, Outcome.resolved (some (Json.str "x")))]) :=
  ⟨step_success_part_nonarray s id payload hna,
   fun hl => step_success_final_nonarray s id payload entry hl hna,
   rfl⟩

theorem nonarray_payloads_bypass_accumulator_witness :
    step c9Start (MAEvent.success 1 (some (Json.str "x")) true) = (c9Start, []) :=
  (nonarray_payloads_bypass_accumulator c9Start 1 (some (Json.str "x"))
      ⟨[], COMMAND_TIMEOUT_MS⟩ (fun xs h => by simp at h)).1

/-! ### `sendCommand` (`src/server/ma/client.ts`) -/

/-- The outbound command frame `{command, message_id, args?}`; the `args`
key is present only when `args` was supplied and has at least one key. -/
structure Frame where
  command : String
  message_id : Nat
  args : Option (List (String × Json))

/-- `sendCommand(command, args?)`: throws `Not connected to Music
Assistant.` when there is no socket or the socket is not `OPEN` (no write,
no pending entry); otherwise draws a fresh message id, registers the
pending entry (with its 12 s timeout) and returns the frame to write. -/
def sendCommand (s : ClientState) (command : String)
    (args : Option (List (String × Json))) : Except String (ClientState × Frame) :=
  match s.ws with
  | some ReadyState.OPEN =>
      Except.ok (registerPending s,
        { command := command,
          message_id := s.nextId,
          args :=
            match args with
            | some l => if l.isEmpty then none else some l
            | none => none })
  | _ => Except.error "Not connected to Music Assistant."

/-- C8: `sendCommand` rejects immediately with the not-connected error when
there is no socket or it is not `OPEN`, registering nothing and writing
nothing (the error return carries no successor state and no frame); when
the socket is `OPEN` it registers a pending entry under a fresh id (fresh
by the table invariant) with the 12-second timeout and produces the frame
carrying that id. -/
theorem sendCommand_guards_and_registration
    (s : ClientState) (command : String) (args : Option (List (String × Json))) :
    ((s.ws = none ∨ ∃ r, s.ws = some r ∧ r ≠ ReadyState.OPEN) →
      sendCommand s command args = Except.error "Not connected to Music Assistant.") ∧
    (s.ws = some ReadyState.OPEN →
      ∃ s' frame, sendCommand s command args = Except.ok (s', frame) ∧
        frame.message_id = s.nextId ∧
        frame.command = command ∧
        s'.pending = (s.nextId, ⟨[], COMMAND_TIMEOUT_MS⟩) :: s.pending ∧
        COMMAND_TIMEOUT_MS = 12000 ∧
        (TableInv s → s.nextId ∉ pendingIds s)) := by
  obtain ⟨ws₀, n₀, p₀⟩ := s
  constructor
  · rintro (hws | ⟨r, hws, hr⟩)
    · have hws' : ws₀ = none := hws
      subst hws'
      rfl
    · have hws' : ws₀ = some r := hws
      subst hws'
      cases r with
      | CONNECTING => rfl
      | OPEN => exact absurd rfl hr
      | CLOSING => rfl
      | CLOSED => rfl
  · intro hws
    have hws' : ws₀ = some ReadyState.OPEN := hws
    subst hws'
    refine ⟨_, _, rfl, rfl, rfl, rfl, rfl, ?_⟩
    intro hinv hmem
    exact absurd (hinv.2 _ hmem) (by omega)

/-- A concrete client state whose socket is `CLOSED`. -/
def c8Closed : ClientState := ⟨some ReadyState.CLOSED, 7, []⟩

/-- A concrete client state whose socket is `OPEN`. -/
def c8Open : ClientState := ⟨some ReadyState.OPEN, 7, [(2, ⟨[], COMMAND_TIMEOUT_MS⟩)]⟩

theorem sendCommand_guards_and_registration_witness :
    sendCommand c8Closed "players/all" none =
        Except.error "Not connected to Music Assistant." ∧
    ∃ s' frame, sendCommand c8Open "players/all" none = Except.ok (s', frame) ∧
      frame.message_id = c8Open.nextId ∧
      frame.command = "players/all" ∧
      s'.pending = (c8Open.nextId, ⟨[], COMMAND_TIMEOUT_MS⟩) :: c8Open.pending ∧
      COMMAND_TIMEOUT_MS = 12000 ∧
      (TableInv c8Open → c8Open.nextId ∉ pendingIds c8Open) :=
  ⟨(sendCommand_guards_and_registration c8Closed "players/all" none).1
      (Or.inr ⟨ReadyState.CLOSED, rfl, by decide⟩),
   (sendCommand_guards_and_registration c8Open "players/all" none).2 rfl⟩

/-! ### Wire codec (`parseServerInfo`, `parseEventMessage`,
`parseResultMessage`, `handleMessage` in `src/server/ma/client.ts`) -/

/-- `MAServerInfoMessage` from `types.ts` (JS numbers as rationals). -/
structure MAServerInfoMessage where
  server_id : String
  server_version : String
  schema_version : ℚ
  min_supported_schema_version : Option ℚ
deriving DecidableEq

/-- `MAEventMessage` from `types.ts`. -/
structure MAEventMessage where
  event : String
  object_id : Option String
  data : Option Json

/-- A parsed result frame: success (`message_id`, `result`, `partial`) or
error (`message_id`, `error_code`, `details`). -/
inductive MAResultMessage where
  | ok (message_id : String) (result : Option Json) (isPart : Bool)
  | err (message_id : String) (error_code : String) (details : Option String)

/-- JS property read `record[key]` on a parsed JSON object
(`none` = `undefined`). -/
def jLookup (fields : List (String × Json)) (key : String) : Option Json :=
  (fields.find? (fun kv => kv.1 == key)).map (·.2)

/-- `typeof v === 'string'` projection. -/
def asStr : Option Json → Option String
  | some (Json.str s) => some s
  | _ => none

/-- `typeof v === 'number'` projection. -/
def asNum : Option Json → Option ℚ
  | some (Json.num q) => some q
  | _ => none

/-- `parseServerInfo` from `client.ts`: requires string `server_id`, string
`server_version` and numeric `schema_version`; optional numeric
`min_supported_schema_version`. -/
def parseServerInfo (m : List (String × Json)) : Option MAServerInfoMessage :=
  match asStr (jLookup m "server_id"), asStr (jLookup m "server_version"),
      asNum (jLookup m "schema_version") with
  | some sid, some sver, some sv =>
      some { server_id := sid, server_version := sver, schema_version := sv,
             min_supported_schema_version := asNum (jLookup m "min_supported_schema_version") }
  | _, _, _ => none

/-- `parseEventMessage` from `client.ts`: requires a string `event` field. -/
def parseEventMessage (m : List (String × Json)) : Option MAEventMessage :=
  match asStr (jLookup m "event") with
  | none => none
  | some ev =>
      some { event := ev, object_id := asStr (jLookup m "object_id"),
             data := jLookup m "data" }

/-- `parseResultMessage` from `client.ts`: requires a string `message_id`;
a string `error_code` makes it an error result, otherwise a success result
whose `partial` flag holds exactly when the field is the boolean `true`. -/
def parseResultMessage (m : List (String × Json)) : Option MAResultMessage :=
  match asStr (jLookup m "message_id") with
  | none => none
  | some mid =>
      match asStr (jLookup m "error_code") with
      | some code => some (MAResultMessage.err mid code (asStr (jLookup m "details")))
      | none =>
          some (MAResultMessage.ok mid (jLookup m "result")
            (match jLookup m "partial" with
             | some (Json.bool true) => true
             | _ => false))

/-- `asRecord` from `client.ts`: `typeof v === 'object' && v !== null`.
A JSON array passes the JS check but (coming from `JSON.parse`) carries no
string-keyed properties, so it is modelled as an object with no fields. -/
def asRecord : Json → Option (List (String × Json))
  | Json.obj fields => some fields
  | Json.arr _ => some []
  | _ => none

/-- What `handleMessage` does with one parsed frame. -/
inductive InboundAction where
  | serverInfoMsg (info : MAServerInfoMessage)
  | eventMsg (e : MAEventMessage)
  | resultMsg (r : MAResultMessage)
  | ignored

/-- `handleMessage` from `client.ts`.  The argument is the result of
`JSON.parse` on the raw frame (`none` = the parse threw).  Classification
is in fixed order: server-info first, then event, then result; anything
else (including malformed frames and non-objects) is ignored. -/
def handleMessage (frame : Option Json) : InboundAction :=
  match frame with
  | none => InboundAction.ignored
  | some j =>
      match asRecord j with
      | none => InboundAction.ignored
      | some m =>
          match parseServerInfo m with
          | some info => InboundAction.serverInfoMsg info
          | none =>
              match parseEventMessage m with
              | some e => InboundAction.eventMsg e
              | none =>
                  match parseResultMessage m with
                  | some r => InboundAction.resultMsg r
                  | none => InboundAction.ignored

/-- A frame that matches both the server-info shape and the result shape:
classification order must pick server-info. -/
def overlapFrame : Json :=
  Json.obj [("server_id", Json.str "srv"), ("server_version", Json.str "2.4.0"),
            ("schema_version", Json.num 28), ("message_id", Json.str "m1"),
            ("event", Json.num 5), ("result", Json.null)]

/-- C7: Malformed JSON and non-object frames are ignored (no dispatch, no
state change); a parsed object frame is classified in fixed order —
server-info first, then event, then result — and dispatched to exactly one
handler; a frame matching none of the shapes is ignored.  The concrete
`overlapFrame` carries both server-info and result fields and goes to the
server-info handler. -/
theorem handleMessage_classification
    (j : Json) (m : List (String × Json)) :
    (handleMessage none = InboundAction.ignored) ∧
    (asRecord j = none → handleMessage (some j) = InboundAction.ignored) ∧
    (∀ info, parseServerInfo m = some info →
      handleMessage (some (Json.obj m)) = InboundAction.serverInfoMsg info) ∧
    (∀ e, parseServerInfo m = none → parseEventMessage m = some e →
      handleMessage (some (Json.obj m)) = InboundAction.eventMsg e) ∧
    (∀ r, parseServerInfo m = none → parseEventMessage m = none →
      parseResultMessage m = some r →
      handleMessage (some (Json.obj m)) = InboundAction.resultMsg r) ∧
    (parseServerInfo m = none → parseEventMessage m = none →
      parseResultMessage m = none →
      handleMessage (some (Json.obj m)) = InboundAction.ignored) ∧
    (handleMessage (some overlapFrame) =
      InboundAction.serverInfoMsg
        { server_id := "srv", server_version := "2.4.0", schema_version := 28,
          min_supported_schema_version := none }) := by
  refine ⟨rfl, ?_, ?_, ?_, ?_, ?_, rfl⟩
  · intro h
    rw [handleMessage, h]
  · intro info h
    rw [handleMessage]
    show (match parseServerInfo m with
          | some info => InboundAction.serverInfoMsg info
          | none => _) = _
    rw [h]
  · intro e h1 h2
    rw [handleMessage]
    show (match parseServerInfo m with
          | some info => InboundAction.serverInfoMsg info
          | none => _) = _
    rw [h1, h2]
  · intro r h1 h2 h3
    rw [handleMessage]
    show (match parseServerInfo m with
          | some info => InboundAction.serverInfoMsg info
          | none => _) = _
    rw [h1, h2, h3]
  · intro h1 h2 h3
    rw [handleMessage]
    show (match parseServerInfo m with
          | some info => InboundAction.serverInfoMsg info
          | none => _) = _
    rw [h1, h2, h3]

theorem handleMessage_classification_witness :
    handleMessage (some (Json.str "hello")) = InboundAction.ignored ∧
    handleMessage (some (Json.obj [("event", Json.str "players_updated")])) =
      InboundAction.eventMsg
        { event := "players_updated", object_id := none, data := none } :=
  ⟨(handleMessage_classification (Json.str "hello") []).2.1 rfl,
   (handleMessage_classification Json.null
      [("event", Json.str "players_updated")]).2.2.2.1
      { event := "players_updated", object_id := none, data := none } rfl rfl⟩

/-! ### Session state machine (`handleServerInfo`, `getStatus`,
`authenticateWithToken` in `src/server/ma/client.ts`) -/

/-- `MAConnectionState` from `client.ts`. -/
inductive MAConnectionState where
  | disconnected
  | connecting
  | connected
  | authenticating
  | authenticated
  | error
deriving DecidableEq

/-- The session-relevant fields of `MusicAssistantClient`. -/
structure SessionState where
  state : MAConnectionState
  message : String
  authenticated : Bool
  serverInfo : Option MAServerInfoMessage
  authToken : String
deriving DecidableEq

/-- `MAStatusSnapshot` from `client.ts`. -/
structure MAStatusSnapshot where
  state : MAConnectionState
  message : String
  connected : Bool
  authenticated : Bool
  authRequired : Bool
  serverInfo : Option MAServerInfoMessage
deriving DecidableEq

/-- `getStatus()`: `authRequired` holds iff a server info was received whose
`schema_version` is ≥ 28 and the session is not authenticated; `connected`
mirrors `ws?.readyState === OPEN`, passed in as `wsOpen`. -/
def getStatus (s : SessionState) (wsOpen : Bool) : MAStatusSnapshot :=
  { state := s.state
    message := s.message
    connected := wsOpen
    authenticated := s.authenticated
    authRequired :=
      match s.serverInfo with
      | some si => decide (si.schema_version ≥ 28) && !s.authenticated
      | none => false
    serverInfo := s.serverInfo }

/-- Result of the `auth` command round-trip attempted by
`authenticateWithToken` (abstracted: the server either accepts or the
attempt fails with some message). -/
inductive AuthAttempt where
  | accepted
  | failed (msg : String)

/-- `handleServerInfo(info)`: stores the info; for `schema_version ≥ 28`
with no configured token it stays `connected` and asks for a login; with a
token it attempts `auth` (the boolean in the result records whether the
auth command round-trip was attempted); for `schema_version < 28` it goes
straight to `authenticated` with no auth command. -/
def handleServerInfo (s : SessionState) (info : MAServerInfoMessage)
    (auth : AuthAttempt) : SessionState × Bool :=
  let s0 := { s with serverInfo := some info }
  if info.schema_version ≥ 28 then
    if s0.authToken = "" then
      ({ s0 with state := MAConnectionState.connected,
                 message := "Authentication required. Use provider login or set a token.",
                 authenticated := false }, false)
    else
      match auth with
      | AuthAttempt.accepted =>
          ({ s0 with state := MAConnectionState.authenticated,
                     message := "Connected and authenticated.",
                     authenticated := true }, true)
      | AuthAttempt.failed msg =>
          ({ s0 with state := MAConnectionState.error,
                     message := "Authentication failed: " ++ msg,
                     authenticated := false }, true)
  else
    ({ s0 with state := MAConnectionState.authenticated,
               message := "Connected.",
               authenticated := true }, false)

/-- C3: After server-info, `schema_version < 28` moves the session straight
to `authenticated` with no auth command sent; `schema_version ≥ 28` with no
configured token leaves the session in `connected` with no auth command,
and its status snapshot reports `authRequired = true` and
`authenticated = false`. -/
theorem handleServerInfo_schema_gate
    (s : SessionState) (info : MAServerInfoMessage) (auth : AuthAttempt)
    (wsOpen : Bool) :
    (info.schema_version < 28 →
      (handleServerInfo s info auth).1.state = MAConnectionState.authenticated ∧
      (handleServerInfo s info auth).1.authenticated = true ∧
      (handleServerInfo s info auth).2 = false) ∧
    (info.schema_version ≥ 28 → s.authToken = "" →
      (handleServerInfo s info auth).1.state = MAConnectionState.connected ∧
      (handleServerInfo s info auth).2 = false ∧
      (getStatus (handleServerInfo s info auth).1 wsOpen).authRequired = true ∧
      (getStatus (handleServerInfo s info auth).1 wsOpen).authenticated = false) := by
  constructor
  · intro hlt
    rw [handleServerInfo.eq_def]
    rw [if_neg (by exact not_le.mpr hlt)]
    exact ⟨rfl, rfl, rfl⟩
  · intro hge htok
    rw [handleServerInfo.eq_def]
    rw [if_pos hge, if_pos (by exact htok)]
    refine ⟨rfl, rfl, ?_, rfl⟩
    show (match some info with
          | some si => decide (si.schema_version ≥ 28) && !false
          | none => false) = true
    simp [hge]

theorem handleServerInfo_schema_gate_witness :
    ((handleServerInfo
        ⟨MAConnectionState.connected, "Connected. Waiting for server info…", false, none, ""⟩
        ⟨"srv", "2.4.0", 27, none⟩ AuthAttempt.accepted).1.state =
      MAConnectionState.authenticated ∧
     (handleServerInfo
        ⟨MAConnectionState.connected, "Connected. Waiting for server info…", false, none, ""⟩
        ⟨"srv", "2.4.0", 27, none⟩ AuthAttempt.accepted).1.authenticated = true ∧
     (handleServerInfo
        ⟨MAConnectionState.connected, "Connected. Waiting for server info…", false, none, ""⟩
        ⟨"srv", "2.4.0", 27, none⟩ AuthAttempt.accepted).2 = false) ∧
    ((handleServerInfo
        ⟨MAConnectionState.connected, "Connected. Waiting for server info…", false, none, ""⟩
        ⟨"srv", "2.4.0", 28, none⟩ AuthAttempt.accepted).1.state =
      MAConnectionState.connected ∧
     (handleServerInfo
        ⟨MAConnectionState.connected, "Connected. Waiting for server info…", false, none, ""⟩
        ⟨"srv", "2.4.0", 28, none⟩ AuthAttempt.accepted).2 = false ∧
     (getStatus (handleServerInfo
        ⟨MAConnectionState.connected, "Connected. Waiting for server info…", false, none, ""⟩
        ⟨"srv", "2.4.0", 28, none⟩ AuthAttempt.accepted).1 true).authRequired = true ∧
     (getStatus (handleServerInfo
        ⟨MAConnectionState.connected, "Connected. Waiting for server info…", false, none, ""⟩
        ⟨"srv", "2.4.0", 28, none⟩ AuthAttempt.accepted).1 true).authenticated = false) :=
  ⟨(handleServerInfo_schema_gate _ _ _ true).1 (by norm_num),
   (handleServerInfo_schema_gate _ _ _ true).2 (by norm_num) rfl⟩

/-! ### State reconciler (`src/server/index.ts`) -/

/-- `MAPlayer` from `types.ts` (optional fields as `Option`; `synced_to`
and `active_group` merge `null`/`undefined` into `none`, which is faithful
because the source only ever checks `typeof === 'string'` on them). -/
structure MAPlayer where
  player_id : String
  display_name : Option String
  available : Option Bool
  powered : Option Bool
  state : Option String
  active_source : Option String
  volume_level : Option ℚ
  volume_muted : Option Bool
  group_members : Option (List String)
  synced_to : Option String
  active_group : Option String
deriving DecidableEq

/-- A player with only `player_id` set (all optional fields absent). -/
def mkPlayer (pid : String) : MAPlayer :=
  ⟨pid, none, none, none, none, none, none, none, none, none, none⟩

/-- `findPlayerById` from `index.ts`: a falsy id (missing or empty string)
yields `null`, otherwise the first cached player with that id. -/
def findPlayerById (cache : List MAPlayer) : Option String → Option MAPlayer
  | none => none
  | some pid =>
      if pid = "" then none
      else cache.find? (fun p => p.player_id == pid)

/-- `normalizePlayerIdList` on a string array: keep entries whose trim is
non-empty, trimmed. -/
def normalizePlayerIdList (values : List String) : List String :=
  (values.filter (fun v => !(jsTrim v == ""))).map (fun v => jsTrim v)

/-- `normalizePlayerIdList` applied to a possibly-`undefined` array
(`undefined` is not an array, hence `[]`). -/
def normalizeOptPlayerIdList (values : Option (List String)) : List String :=
  normalizePlayerIdList (values.getD [])

/-- The parent id followed by `resolveControllingPlayer`: the trimmed
`synced_to` when it is a string with non-blank trim, else the trimmed
`active_group` under the same condition, else none (JS `||` chain). -/
def playerParentId (p : MAPlayer) : Option String :=
  match p.synced_to with
  | some s =>
      if jsTrim s = "" then
        match p.active_group with
        | some a => if jsTrim a = "" then none else some (jsTrim a)
        | none => none
      else some (jsTrim s)
  | none =>
      match p.active_group with
      | some a => if jsTrim a = "" then none else some (jsTrim a)
      | none => none

/-- The loop of `resolveControllingPlayer`, made total with explicit fuel.
`none` = fuel exhausted (proved impossible for fuel > number of cached
players); `some r` = the loop returned `r`. -/
def resolveGo (cache : List MAPlayer) : Nat → Option MAPlayer → List String →
    Option (Option MAPlayer)
  | 0, _, _ => none
  | _ + 1, none, _ => some none
  | fuel + 1, some current, visited =>
      if current.player_id ∈ visited then some (some current)
      else
        match playerParentId current with
        | none => some (some current)
        | some parentId =>
            if parentId = current.player_id then some (some current)
            else
              match findPlayerById cache (some parentId) with
              | none => some (some current)
              | some parent =>
                  resolveGo cache fuel (some parent) (current.player_id :: visited)

/-- `resolveControllingPlayer` from `index.ts`: follow `synced_to` /
`active_group` parents from the start player, guarded by a visited set;
`cache.length + 1` fuel is enough (see `resolveGo_isSome`). -/
def resolveControllingPlayer (cache : List MAPlayer) (playerId : Option String) :
    Option MAPlayer :=
  match resolveGo cache (cache.length + 1) (findPlayerById cache playerId) [] with
  | some r => r
  | none => none

/-- The loop of `Array.from(new Set(xs))`: keep the first occurrence of
each element, tracking what has been seen (structural recursion so the
kernel can evaluate it). -/
def setDedupAux : List String → List String → List String
  | [], _ => []
  | x :: xs, seen =>
      if x ∈ seen then setDedupAux xs seen
      else x :: setDedupAux xs (x :: seen)

/-- `Array.from(new Set(xs))`: deduplicate keeping first occurrences. -/
def setDedup (xs : List String) : List String := setDedupAux xs []

/-- The two volume scopes of `index.ts`. -/
inductive VolumeControlScope where
  | selected
  | group
deriving DecidableEq

/-- `getVolumeTargetPlayerIds` from `index.ts`. -/
def getVolumeTargetPlayerIds (cache : List MAPlayer) (selectedPlayerId : Option String)
    (scope : VolumeControlScope) (explicitPlayerIds : List String) :
    Except String (List String) :=
  let explicit := normalizePlayerIdList explicitPlayerIds
  if explicit.length > 0 then Except.ok (setDedup explicit)
  else
    match findPlayerById cache selectedPlayerId with
    | none => Except.error "No player selected."
    | some selected =>
        match scope with
        | VolumeControlScope.selected => Except.ok [selected.player_id]
        | VolumeControlScope.group =>
            let controller :=
              (resolveControllingPlayer cache (some selected.player_id)).getD selected
            let groupMembers := normalizeOptPlayerIdList controller.group_members
            let ids :=
              if groupMembers.length > 1 then groupMembers
              else normalizeOptPlayerIdList selected.group_members
            if ids.length > 0 then Except.ok (setDedup ids)
            else Except.ok [selected.player_id]

/-- `clamp(value, min = 0, max = 100)` from `index.ts`. -/
def clamp (value lo hi : ℚ) : ℚ := min hi (max lo value)

/-- JavaScript `Math.round`: round half toward positive infinity. -/
def jsRound (q : ℚ) : ℤ := ⌊q + 1 / 2⌋

/-- `getCurrentVolume` from `index.ts`: the cached `volume_level` if it is a
finite number, else the volume of a freshly fetched player (`fresh` models
the `players/get` round-trip; `none` = the fetched player has no finite
volume), else 0.  The boolean records whether the fresh fetch was issued. -/
def getCurrentVolume (cache : List MAPlayer) (fresh : String → Option ℚ)
    (playerId : String) : ℚ × Bool :=
  match (findPlayerById cache (some playerId)).bind (fun p => p.volume_level) with
  | some v => (v, false)
  | none =>
      match fresh playerId with
      | some v => (v, true)
      | none => (0, true)

/-- `adjustVolume(delta, scope, explicitPlayerIds)` from `index.ts`:
resolves the target ids, deduplicates, and for each target issues
`players/cmd/volume_set` with the clamped sum of its current volume and the
rounded delta.  The result lists the issued `(player_id, volume_level)`
commands. -/
def adjustVolume (cache : List MAPlayer) (selectedPlayerId : Option String)
    (fresh : String → Option ℚ) (delta : ℚ) (scope : VolumeControlScope)
    (explicitPlayerIds : List String) : Except String (List (String × ℚ)) :=
  match getVolumeTargetPlayerIds cache selectedPlayerId scope explicitPlayerIds with
  | Except.error e => Except.error e
  | Except.ok targetPlayerIds =>
      let uniqueIds := setDedup targetPlayerIds
      let volumeDelta : ℤ := jsRound delta
      Except.ok (uniqueIds.map (fun playerId =>
        (playerId,
         clamp ((getCurrentVolume cache fresh playerId).1 + (volumeDelta : ℚ)) 0 100)))

/-! ### Termination of `resolveControllingPlayer` -/

/-- The deduplicated ids of the cached players. -/
def cacheIds (cache : List MAPlayer) : List String :=
  (cache.map (fun p => p.player_id)).dedup

/-- Loop measure: cached ids not yet visited. -/
def unvisitedCount (cache : List MAPlayer) (visited : List String) : Nat :=
  ((cacheIds cache).filter (fun x => !decide (x ∈ visited))).length

lemma unvisitedCount_cons_lt (cache : List MAPlayer) (visited : List String)
    (cid : String) (hmem : cid ∈ cacheIds cache) (hnv : cid ∉ visited) :
    unvisitedCount cache (cid :: visited) < unvisitedCount cache visited := by
  unfold unvisitedCount
  have hsub : ((cacheIds cache).filter (fun x => !decide (x ∈ cid :: visited))) =
      ((cacheIds cache).filter (fun x => !decide (x ∈ visited))).filter
        (fun x => !(x == cid)) := by
    rw [List.filter_filter]
    apply List.filter_congr
    intro x _
    by_cases h1 : x = cid <;> by_cases h2 : x ∈ visited <;>
      simp [h1, h2, List.mem_cons]
  rw [hsub]
  apply List.length_filter_lt_length_iff_exists.mpr
  refine ⟨cid, List.mem_filter.mpr ⟨hmem, by simp [hnv]⟩, by simp⟩

lemma unvisitedCount_nil_le (cache : List MAPlayer) :
    unvisitedCount cache [] ≤ cache.length := by
  calc unvisitedCount cache [] ≤ (cacheIds cache).length :=
        List.length_filter_le _ _
    _ ≤ (cache.map (fun p => p.player_id)).length :=
        (List.dedup_sublist _).length_le
    _ = cache.length := List.length_map _ _

lemma mem_of_findPlayerById {cache : List MAPlayer} {pid : String} {p : MAPlayer}
    (h : findPlayerById cache (some pid) = some p) : p ∈ cache := by
  rw [findPlayerById] at h
  by_cases hpe : pid = ""
  · rw [if_pos hpe] at h; cases h
  · rw [if_neg hpe] at h
    exact List.mem_of_find?_eq_some h

/-- With more fuel than there are distinct unvisited cached ids, the
resolver loop always returns (the fuel never runs out). -/
lemma resolveGo_isSome (cache : List MAPlayer) :
    ∀ (fuel : Nat) (cur : Option MAPlayer) (visited : List String),
      (∀ c, cur = some c → c ∈ cache) →
      unvisitedCount cache visited < fuel →
      (resolveGo cache fuel cur visited).isSome := by
  intro fuel
  induction fuel with
  | zero => intro cur visited _ hlt; omega
  | succ n ih =>
      intro cur visited hcur hlt
      match cur with
      | none => simp [resolveGo]
      | some c =>
          rw [resolveGo]
          by_cases hv : c.player_id ∈ visited
          · rw [if_pos hv]; rfl
          · rw [if_neg hv]
            split
            · rfl
            · rename_i parentId hp
              split
              · rfl
              · rename_i hpc
                split
                · rfl
                · rename_i parent hf
                  have hcc : c ∈ cache := hcur c rfl
                  have hmemid : c.player_id ∈ cacheIds cache :=
                    List.mem_dedup.mpr (List.mem_map.mpr ⟨c, hcc, rfl⟩)
                  have hdec := unvisitedCount_cons_lt cache visited c.player_id hmemid hv
                  exact ih (some parent) (c.player_id :: visited)
                    (fun d hd => by cases hd; exact mem_of_findPlayerById hf)
                    (by omega)

/-- The two players of the spec's 2-cycle: `A.synced_to = B`,
`B.synced_to = A`. -/
def pA : MAPlayer := { mkPlayer "A" with synced_to := some "B" }

/-- See `pA`. -/
def pB : MAPlayer := { mkPlayer "B" with synced_to := some "A" }

/-- C4: `resolveControllingPlayer` terminates for every cache contents —
with fuel `cache.length + 1` the loop always returns (never exhausts its
fuel), for any start id — and on the 2-cycle `A ↔ B` it returns one of
`A`, `B` instead of looping forever. -/
theorem resolveControllingPlayer_terminates
    (cache : List MAPlayer) (playerId : Option String) :
    (resolveGo cache (cache.length + 1) (findPlayerById cache playerId) []).isSome ∧
    (resolveControllingPlayer [pA, pB] (some "A") = some pA ∨
     resolveControllingPlayer [pA, pB] (some "A") = some pB) := by
  constructor
  · apply resolveGo_isSome
    · intro c hc
      cases hpid : playerId with
      | none => rw [hpid, findPlayerById] at hc; cases hc
      | some pid =>
          rw [hpid] at hc
          exact mem_of_findPlayerById hc
    · have := unvisitedCount_nil_le cache
      omega
  · exact Or.inl rfl

/-! ### Poll-cycle coalescing (`pollState` in `src/server/index.ts`) -/

/-- The module-level poll bookkeeping of `index.ts` (`pollInFlight`,
`pollAgain`), the connection/authentication guards, and a counter of
completed poll cycles. -/
structure PollState where
  inFlight : Bool
  again : Bool
  connected : Bool
  authenticated : Bool
  completed : Nat
deriving DecidableEq

/-- Invoking `pollState()`: if a poll is in flight, set `pollAgain` and
return; if not connected or not authenticated, only emit status; else the
poll cycle starts (`pollInFlight := true`). -/
def pollTrigger (s : PollState) : PollState :=
  if s.inFlight then { s with again := true }
  else if !s.connected || !s.authenticated then s
  else { s with inFlight := true }

/-- The in-flight poll cycle reaching its `finally` block: the cycle is
complete, `pollInFlight` clears, and if `pollAgain` was set it clears and
`pollState()` re-runs once.  (No cycle can finish when none is in flight;
that case is the identity.) -/
def pollFinish (s : PollState) : PollState :=
  if !s.inFlight then s
  else
    let s' := { s with inFlight := false, completed := s.completed + 1 }
    if s'.again then pollTrigger { s' with again := false }
    else s'

/-- The externally visible poll events. -/
inductive PollEvent where
  | trigger
  | finish
deriving DecidableEq

/-- Run a sequence of poll events. -/
def runPoll (s : PollState) : List PollEvent → PollState
  | [] => s
  | PollEvent.trigger :: es => runPoll (pollTrigger s) es
  | PollEvent.finish :: es => runPoll (pollFinish s) es

/-- A poll in flight, trailing flag clear, connected and authenticated,
no cycle completed yet. -/
def c5Start : PollState := ⟨true, false, true, true, 0⟩

/-- C5: At most one poll cycle runs at a time — a trigger while a poll is
in flight only sets the trailing flag (same in-flight cycle, same completed
count); when the in-flight cycle finishes with the flag set, it re-runs
exactly once; and triggering twice while one cycle is in flight yields
exactly two completed cycles (a further finish changes nothing — not
zero, not three). -/
theorem poll_cycle_coalescing (s : PollState) :
    (s.inFlight = true → pollTrigger s = { s with again := true }) ∧
    (s.inFlight = true → s.again = true → s.connected = true →
      s.authenticated = true →
      pollFinish s = { s with inFlight := true, again := false,
                              completed := s.completed + 1 }) ∧
    (runPoll c5Start
        [PollEvent.trigger, PollEvent.trigger, PollEvent.finish, PollEvent.finish] =
      ⟨false, false, true, true, 2⟩ ∧
     pollFinish ⟨false, false, true, true, 2⟩ = ⟨false, false, true, true, 2⟩) := by
  obtain ⟨f, a, c, au, n⟩ := s
  refine ⟨?_, ?_, rfl, rfl⟩
  · intro hf
    cases hf
    rfl
  · intro hf ha hc hau
    cases hf; cases ha; cases hc; cases hau
    rfl

theorem poll_cycle_coalescing_witness :
    pollTrigger c5Start = { c5Start with again := true } ∧
    pollFinish ⟨true, true, true, true, 7⟩ =
      ⟨true, false, true, true, 8⟩ :=
  ⟨(poll_cycle_coalescing c5Start).1 rfl,
   (poll_cycle_coalescing ⟨true, true, true, true, 7⟩).2.1 rfl rfl rfl rfl⟩

/-- C10: A non-empty explicit player-id list takes absolute precedence in
`getVolumeTargetPlayerIds`: the scope is ignored and the deduplicated,
trimmed explicit list is returned; and the `No player selected.` error
occurs exactly when the explicit list normalizes to empty and the selected
player is not in the cache. -/
theorem getVolumeTargetPlayerIds_explicit_precedence
    (cache : List MAPlayer) (selectedPlayerId : Option String)
    (scope scope' : VolumeControlScope) (explicitPlayerIds : List String) :
    (normalizePlayerIdList explicitPlayerIds ≠ [] →
      getVolumeTargetPlayerIds cache selectedPlayerId scope explicitPlayerIds =
        Except.ok (setDedup (normalizePlayerIdList explicitPlayerIds)) ∧
      getVolumeTargetPlayerIds cache selectedPlayerId scope explicitPlayerIds =
        getVolumeTargetPlayerIds cache selectedPlayerId scope' explicitPlayerIds) ∧
    (getVolumeTargetPlayerIds cache selectedPlayerId scope explicitPlayerIds =
        Except.error "No player selected." ↔
      (normalizePlayerIdList explicitPlayerIds = [] ∧
       findPlayerById cache selectedPlayerId = none)) := by
  constructor
  · intro hne
    have hpos : (normalizePlayerIdList explicitPlayerIds).length > 0 :=
      List.length_pos.mpr hne
    constructor
    · simp only [getVolumeTargetPlayerIds, if_pos hpos]
    · simp only [getVolumeTargetPlayerIds, if_pos hpos]
  · constructor
    · intro h
      by_cases hpos : (normalizePlayerIdList explicitPlayerIds).length > 0
      · simp only [getVolumeTargetPlayerIds, if_pos hpos] at h
        cases h
      · have hz : normalizePlayerIdList explicitPlayerIds = [] :=
          List.length_eq_zero.mp (by omega)
        refine ⟨hz, ?_⟩
        cases hfind : findPlayerById cache selectedPlayerId with
        | none => rfl
        | some selected =>
            exfalso
            cases scope with
            | selected =>
                simp only [getVolumeTargetPlayerIds, if_neg hpos, hfind] at h
                cases h
            | group =>
                simp only [getVolumeTargetPlayerIds, if_neg hpos, hfind] at h
                split at h <;> split at h <;> cases h
    · rintro ⟨h1, h2⟩
      simp [getVolumeTargetPlayerIds, h1, h2]

theorem getVolumeTargetPlayerIds_explicit_precedence_witness :
    getVolumeTargetPlayerIds [] none VolumeControlScope.selected [" p1 ", "p2", "p1"] =
      Except.ok (setDedup (normalizePlayerIdList [" p1 ", "p2", "p1"])) ∧
    (getVolumeTargetPlayerIds [] none VolumeControlScope.group [] =
        Except.error "No player selected." ↔
      (normalizePlayerIdList [] = [] ∧ findPlayerById [] none = none)) :=
  ⟨((getVolumeTargetPlayerIds_explicit_precedence [] none VolumeControlScope.selected
      VolumeControlScope.group [" p1 ", "p2", "p1"]).1 (by decide)).1,
   (getVolumeTargetPlayerIds_explicit_precedence [] none VolumeControlScope.group
      VolumeControlScope.selected []).2⟩

/-! ### `adjustVolume` concrete scenario -/

/-- Player `p1` at volume 30, the group leader with members `p1`, `p2`. -/
def p1 : MAPlayer :=
  { mkPlayer "p1" with volume_level := some 30, group_members := some ["p1", "p2"] }

/-- Player `p2` at volume 50, synced to (grouped under) `p1`. -/
def p2 : MAPlayer :=
  { mkPlayer "p2" with volume_level := some 50, synced_to := some "p1" }

/-- The cache of the spec's volume example. -/
def c6Cache : List MAPlayer := [p1, p2]

/-- A fresh-fetch oracle that never returns a finite volume (unused when
the cache has the volumes). -/
def noFetch : String → Option ℚ := fun _ => none

lemma clamp_bounds (v : ℚ) : 0 ≤ clamp v 0 100 ∧ clamp v 0 100 ≤ 100 := by
  unfold clamp
  exact ⟨le_min (by norm_num) (le_max_left 0 v), min_le_left _ _⟩

/-- C6: `adjustVolume` reads each target's cached volume (fetching fresh
only when the cache has none), adds the rounded delta, clamps to 0–100 and
issues a `volume_set` per target; for `p1` at 30 and `p2` at 50 grouped
under `p1`, `adjustVolume(scope=group, delta=+10)` issues 40 for `p1` and
60 for `p2`. -/
theorem adjustVolume_group_cached_delta
    (cache : List MAPlayer) (fresh : String → Option ℚ) (pid : String) (v : ℚ)
    (selectedPlayerId : Option String) (delta : ℚ) (scope : VolumeControlScope)
    (explicitPlayerIds : List String) (out : List (String × ℚ)) :
    ((findPlayerById cache (some pid)).bind (fun p => p.volume_level) = some v →
      getCurrentVolume cache fresh pid = (v, false)) ∧
    ((findPlayerById cache (some pid)).bind (fun p => p.volume_level) = none →
      getCurrentVolume cache fresh pid = ((fresh pid).getD 0, true)) ∧
    (adjustVolume cache selectedPlayerId fresh delta scope explicitPlayerIds =
        Except.ok out → ∀ q ∈ out, 0 ≤ q.2 ∧ q.2 ≤ 100) ∧
    (adjustVolume c6Cache (some "p1") noFetch 10 VolumeControlScope.group [] =
      Except.ok [("p1", 40), ("p2", 60)]) := by
  refine ⟨?_, ?_, ?_, ?_⟩
  · intro h
    rw [getCurrentVolume, h]
  · intro h
    rw [getCurrentVolume, h]
    cases hf : fresh pid <;> rfl
  · intro h q hq
    unfold adjustVolume at h
    split at h
    · cases h
    · rename_i targets htargets
      have hout : out = (setDedup targets).map (fun playerId =>
          (playerId,
           clamp ((getCurrentVolume cache fresh playerId).1 + ((jsRound delta : ℤ) : ℚ))
             0 100)) := by
        cases h
        rfl
      subst hout
      obtain ⟨pid', _, rfl⟩ := List.mem_map.mp hq
      exact clamp_bounds _
  · show Except.ok
        [("p1", clamp ((30:ℚ) + ((jsRound 10 : ℤ) : ℚ)) 0 100),
         ("p2", clamp ((50:ℚ) + ((jsRound 10 : ℤ) : ℚ)) 0 100)] =
      Except.ok [("p1", 40), ("p2", 60)]
    have hr : ((jsRound 10 : ℤ) : ℚ) = 10 := by
      rw [show jsRound 10 = 10 from by unfold jsRound; norm_num]
      norm_num
    rw [hr]
    norm_num [clamp]

theorem adjustVolume_group_cached_delta_witness :
    getCurrentVolume c6Cache noFetch "p1" = (30, false) ∧
    getCurrentVolume c6Cache noFetch "zzz" = ((noFetch "zzz").getD 0, true) :=
  ⟨(adjustVolume_group_cached_delta c6Cache noFetch "p1" 30 none 0
      VolumeControlScope.selected [] []).1 rfl,
   (adjustVolume_group_cached_delta c6Cache noFetch "zzz" 0 none 0
      VolumeControlScope.selected [] []).2.1 rfl⟩
